import Mathlib

/-!
Verification of the field-extraction-to-metric pipeline of the
prometheus-nginxlog-exporter (src/main.go) against its specification.

The shallow embedding models:
  * `Entry` / `Entry.field` / `Entry.floatField` — the parsed record returned
    by the external field-extraction collaborator (gonx), spec section 4.1;
  * `Relabeling` / `NewRelabelings` — the relabeling package (not in src/),
    modelled from the spec, section 4.2;
  * `Metrics.initLabels` — the label schema built by `Metrics.Init`
    (main.go lines 50-61);
  * `applyRelabelings` — the per-line relabel loop (main.go lines 258-265);
  * `lineEvents` / `processLine` / `processLines` / `processSourceFile` —
    the line processing loop (main.go lines 236-283), with metric updates
    reified as a list of `MetricEvent`s;
  * `processNamespace` / `followerOnError` — the follower setup and its
    panic-on-error wiring (main.go lines 216-234);
  * `stabilityExitCode` and the shutdown step machine — the experimental
    feature gate and the signal handler of `main` (lines 141-164).
-/

namespace NginxLog

/-- A parsed record: the named field values of one log line, as produced by
the external field-extraction collaborator (`gonx.Entry`). Ephemeral, one per
line. -/
abbrev Entry : Type := List (String × String)

/-- Field lookup, embedding `gonx.Entry.Field`: the value of the named field,
or `none` when the field is absent from the record. -/
def Entry.field (e : Entry) (name : String) : Option String :=
  List.lookup name e

/-- Digits-to-number accumulator used by the decimal parser. -/
def natFromDigits (cs : List Char) : Nat :=
  cs.foldl (fun n c => n * 10 + (c.toNat - ('0').toNat)) 0

/-- Modelled from the spec: the numeric parsing performed by the external
collaborator (`gonx.Entry.FloatField` via `strconv.ParseFloat`); the spec only
requires "parses as a number" (section 4.3). Plain decimal literals with an
optional sign and fraction, as rationals. -/
def parseDecimal (s : String) : Option ℚ :=
  let cs := s.toList
  let sign : ℚ := if cs.head? = some ('-') then -1 else 1
  let cs := if cs.head? = some ('-') then cs.drop 1 else cs
  let intPart := cs.takeWhile (fun c => c.isDigit)
  let rest := cs.dropWhile (fun c => c.isDigit)
  if intPart.isEmpty then none
  else
    match rest with
    | [] => some (sign * (natFromDigits intPart : ℚ))
    | '.' :: frac =>
      if frac.isEmpty then none
      else if frac.all (fun c => c.isDigit) then
        some (sign * ((natFromDigits intPart : ℚ) +
          (natFromDigits frac : ℚ) / ((10 : ℚ) ^ frac.length)))
      else none
    | _ => none

/-- Embedding `gonx.Entry.FloatField`: look the field up and parse it as a
number; `none` when the field is absent or unparsable. -/
def Entry.floatField (e : Entry) (name : String) : Option ℚ :=
  (Entry.field e name).bind parseDecimal

/-- Modelled from the spec: one compiled relabeling rule of the `relabeling`
package (not under src/): a source field name, a target label name, and a
mapping that either produces a label value or fails (identity copy,
pattern-capture transform, or static replacement — spec section 4.2). -/
structure Relabeling where
  TargetLabel : String
  SourceValue : String
  Map : String → Option String

/-- Modelled from the spec: one user relabeling rule of the configuration
(`config.RelabelConfig`, not under src/). -/
structure RelabelConfig where
  TargetLabel : String
  SourceValue : String
  Map : String → Option String

/-- Modelled from the spec: `relabeling.NewRelabelings` (not under src/)
compiles the user rule list, one compiled rule per configured rule, in
declaration order. -/
def NewRelabelings (cfgs : List RelabelConfig) : List Relabeling :=
  cfgs.map fun c => ⟨c.TargetLabel, c.SourceValue, c.Map⟩

/-- The namespace configuration (`config.NamespaceConfig`), with the fields
the core pipeline reads. Immutable after load. -/
structure NamespaceConfig where
  Name : String
  Format : String
  SourceFiles : List String
  OrderedLabelNames : List String
  OrderedLabelValues : List String
  RelabelConfigs : List RelabelConfig

/-- One metric update performed by the line processing loop, reified: which
metric of the namespace is touched, with which label vector and which numeric
argument. Summary and histogram of one family are distinct metrics and give
distinct events, mirroring the paired `Observe` calls in main.go. -/
inductive MetricEvent where
  | incCount (labels : List String)
  | addBytes (labels : List String) (v : ℚ)
  | observeUpstreamSummary (labels : List String) (v : ℚ)
  | observeUpstreamHist (labels : List String) (v : ℚ)
  | observeResponseSummary (labels : List String) (v : ℚ)
  | observeResponseHist (labels : List String) (v : ℚ)
  | incParseError
  deriving DecidableEq, Repr

/-- The label vector an event is keyed by; `none` for the unlabeled
parse-error counter. -/
def eventLabels : MetricEvent → Option (List String)
  | MetricEvent.incCount ls => some ls
  | MetricEvent.addBytes ls _ => some ls
  | MetricEvent.observeUpstreamSummary ls _ => some ls
  | MetricEvent.observeUpstreamHist ls _ => some ls
  | MetricEvent.observeResponseSummary ls _ => some ls
  | MetricEvent.observeResponseHist ls _ => some ls
  | MetricEvent.incParseError => none

def isIncCount : MetricEvent → Bool
  | MetricEvent.incCount _ => true
  | _ => false

def isAddBytes : MetricEvent → Bool
  | MetricEvent.addBytes _ _ => true
  | _ => false

def isUpstreamObs : MetricEvent → Bool
  | MetricEvent.observeUpstreamSummary _ _ => true
  | MetricEvent.observeUpstreamHist _ _ => true
  | _ => false

def isResponseObs : MetricEvent → Bool
  | MetricEvent.observeResponseSummary _ _ => true
  | MetricEvent.observeResponseHist _ _ => true
  | _ => false

/-- The label schema built by `Metrics.Init` (main.go lines 50-61): start from
`cfg.OrderedLabelNames`, append the target label of every built-in default
relabeling, then the target label of every user relabeling, in order. The
built-in default rule list is a parameter (`relabeling.DefaultRelabelings` is
not under src/ and its exact contents are an open question of the spec). -/
def Metrics.initLabels (defaults : List Relabeling) (cfg : NamespaceConfig) :
    List String :=
  let labels := cfg.OrderedLabelNames
  let labels := defaults.foldl (fun acc r => acc ++ [r.TargetLabel]) labels
  cfg.RelabelConfigs.foldl (fun acc r => acc ++ [r.TargetLabel]) labels

/-- The relabel loop body of `processSourceFile` (main.go lines 258-265),
with the running rule index made explicit: for the rule at index `i`, if its
source field is present in the record and its mapping produces a value, write
that value into position `i + off` of the label value buffer; otherwise leave
the buffer untouched. -/
def applyRelabelingsAux (off : Nat) (entry : Entry) :
    Nat → List Relabeling → List String → List String
  | _, [], lv => lv
  | i, r :: rs, lv =>
    let lv' :=
      match Entry.field entry r.SourceValue with
      | some str =>
        match r.Map str with
        | some mapped => lv.set (i + off) mapped
        | none => lv
      | none => lv
    applyRelabelingsAux off entry (i + 1) rs lv'

/-- The relabel loop of main.go lines 258-265, started at rule index 0. -/
def applyRelabelings (rs : List Relabeling) (off : Nat) (entry : Entry)
    (lv : List String) : List String :=
  applyRelabelingsAux off entry 0 rs lv

/-- The metric updates of one successfully extracted line (main.go lines
258-281): run the relabel loop over the label value buffer, increment the
request counter, then conditionally add to the bytes counter and observe the
upstream-time and response-time summary/histogram pairs, each guarded by its
own hardcoded field. Returns the buffer after the relabel loop together with
the updates, in program order. -/
def lineEvents (rs : List Relabeling) (off : Nat) (entry : Entry)
    (labelValues : List String) : List String × List MetricEvent :=
  let lv := applyRelabelings rs off entry labelValues
  (lv,
    [MetricEvent.incCount lv]
    ++ (match Entry.floatField entry "body_bytes_sent" with
        | some bytes => [MetricEvent.addBytes lv bytes]
        | none => [])
    ++ (match Entry.floatField entry "upstream_response_time" with
        | some t => [MetricEvent.observeUpstreamSummary lv t,
                     MetricEvent.observeUpstreamHist lv t]
        | none => [])
    ++ (match Entry.floatField entry "request_time" with
        | some t => [MetricEvent.observeResponseSummary lv t,
                     MetricEvent.observeResponseHist lv t]
        | none => []))

/-- One iteration of the line loop (main.go lines 250-282): parse the line
with the external parser; on failure increment the parse-error counter and
leave the buffer untouched (`continue`); on success perform the per-line
updates. -/
def processLine (parse : String → Option Entry) (rs : List Relabeling)
    (off : Nat) (lv : List String) (line : String) :
    List String × List MetricEvent :=
  match parse line with
  | none => (lv, [MetricEvent.incParseError])
  | some entry => lineEvents rs off entry lv

/-- The line loop of `processSourceFile` over a finite sequence of delivered
lines, threading the single reused label value buffer from line to line
exactly as the Go loop does, and collecting the metric updates in order. -/
def processLines (parse : String → Option Entry) (rs : List Relabeling)
    (off : Nat) : List String → List String → List String × List MetricEvent
  | lv, [] => (lv, [])
  | lv, line :: rest =>
    let r := processLine parse rs off lv line
    let r2 := processLines parse rs off r.1 rest
    (r2.1, r.2 ++ r2.2)

/-- The copy loop of main.go lines 246-248: write the static label values
into the first positions of the freshly `make`d buffer. -/
def copyStatic : Nat → List String → List String → List String
  | _, [], lv => lv
  | i, s :: ss, lv => copyStatic (i + 1) ss (lv.set i s)

/-- Embedding of `processSourceFile` (main.go lines 236-283): build the full rule list
(defaults first, then user rules), size and initialise the label value buffer
once — `make([]string, totalLabelCount)` zero-fills with `""`, then the
static values are copied into the first positions — and run the line loop.
The external parser and the follower's delivered line sequence are
parameters. -/
def processSourceFile (defaults : List Relabeling) (nsCfg : NamespaceConfig)
    (parse : String → Option Entry) (lines : List String) :
    List String × List MetricEvent :=
  let relabelings := defaults ++ NewRelabelings nsCfg.RelabelConfigs
  let staticLabelValues := nsCfg.OrderedLabelValues
  let totalLabelCount := staticLabelValues.length + relabelings.length
  let relabelLabelOffset := staticLabelValues.length
  let labelValues :=
    copyStatic 0 staticLabelValues (List.replicate totalLabelCount "")
  processLines parse relabelings relabelLabelOffset labelValues lines

/-- Modelled from the spec: the file-following collaborator (`tail` package,
not under src/); only its line sequence matters to the embedding. -/
structure Follower where
  lines : List String

/-- Outcome of starting one namespace: either a process-fatal abort (a Go
`panic`, which terminates the whole process) or a count of started source
file loops. -/
inductive NamespaceOutcome where
  | fatal (err : String)
  | started (loopCount : Nat)
  deriving DecidableEq, Repr

/-- The follower-setup loop of `processNamespace` (main.go lines 222-233):
open a follower per source file, `panic` on the first failure, otherwise
launch one line loop per file. -/
def setupFollowers (newFollower : String → Except String Follower) :
    List String → Nat → NamespaceOutcome
  | [], n => NamespaceOutcome.started n
  | f :: fs, n =>
    match newFollower f with
    | Except.error e => NamespaceOutcome.fatal e
    | Except.ok _ => setupFollowers newFollower fs (n + 1)

/-- Embedding of `processNamespace` (main.go lines 216-234), restricted to its follower
setup: metrics construction is embedded separately by `Metrics.initLabels`. -/
def processNamespace (newFollower : String → Except String Follower)
    (nsCfg : NamespaceConfig) : NamespaceOutcome :=
  setupFollowers newFollower nsCfg.SourceFiles 0

/-- The `OnError` callback registered on every follower (main.go lines
228-230): every terminal follower error is a `panic`, i.e. process-fatal. -/
def followerOnError (err : String) : NamespaceOutcome :=
  NamespaceOutcome.fatal err

/-- The experimental-feature gate of `main` (main.go lines 159-164): exit
with code 1 exactly when the configuration carries a stability warning and
the experimental opt-in flag is unset; otherwise no exit happens here. -/
def stabilityExitCode (hasStabilityWarning : Bool)
    (enableExperimental : Bool) : Option Nat :=
  if hasStabilityWarning && !enableExperimental then some 1 else none

/-- State of the shutdown coordinator (main.go lines 134-150): `running p`
before any signal with `p` registered auxiliary handlers pending, `stopping p`
after the signal goroutine has closed `stopChan` (the broadcast) with `p`
handlers yet to call `Done()`, and `exited c` after `os.Exit(c)`. -/
inductive ShutdownState where
  | running (pending : Nat)
  | stopping (pending : Nat)
  | exited (code : Nat)
  deriving DecidableEq, Repr

/-- Steps of the shutdown coordinator: on a termination signal the goroutine
closes `stopChan` (broadcast to all handlers); each registered handler
acknowledges by `stopHandlers.Done()`; and only once the counted wait group
has drained (`stopHandlers.Wait()` returns) does `os.Exit(0)` run. -/
inductive ShutdownStep : ShutdownState → ShutdownState → Prop
  | signal (p : Nat) :
      ShutdownStep (ShutdownState.running p) (ShutdownState.stopping p)
  | ack (p : Nat) :
      ShutdownStep (ShutdownState.stopping (p + 1)) (ShutdownState.stopping p)
  | exit :
      ShutdownStep (ShutdownState.stopping 0) (ShutdownState.exited 0)

/-- Reachability of the shutdown coordinator. -/
inductive ShutdownReaches : ShutdownState → ShutdownState → Prop
  | refl (s : ShutdownState) : ShutdownReaches s s
  | step {a b c : ShutdownState} :
      ShutdownStep a b → ShutdownReaches b c → ShutdownReaches a c

/-- The kind of a numeric observation, label-free. -/
inductive ObsKind where
  | bytes
  | upstreamSummary
  | upstreamHist
  | responseSummary
  | responseHist
  deriving DecidableEq, Repr

/-- Projection of an event to its numeric observation (kind and value),
forgetting the label vector; `none` for the two pure counters. -/
def numericObservation : MetricEvent → Option (ObsKind × ℚ)
  | MetricEvent.incCount _ => none
  | MetricEvent.addBytes _ v => some (ObsKind.bytes, v)
  | MetricEvent.observeUpstreamSummary _ v => some (ObsKind.upstreamSummary, v)
  | MetricEvent.observeUpstreamHist _ v => some (ObsKind.upstreamHist, v)
  | MetricEvent.observeResponseSummary _ v => some (ObsKind.responseSummary, v)
  | MetricEvent.observeResponseHist _ v => some (ObsKind.responseHist, v)
  | MetricEvent.incParseError => none

/-! ### Concrete inputs used as witnesses and counterexamples -/

/-- A pattern-style mapping that matches only the value "200"
(a rule whose mapping fails on any other value). -/
def demoMap : String → Option String :=
  fun s => if s = "200" then some "200" else none

/-- One user rule: source field "status", target label "status", mapping
`demoMap`. -/
def demoRc : RelabelConfig := ⟨"status", "status", demoMap⟩

/-- A namespace with no static labels and the single rule `demoRc`. -/
def demoCfg : NamespaceConfig := ⟨"nginx", "fmt", ["access.log"], [], [], [demoRc]⟩

/-- Line "A" parses to a record with status 200. -/
def demoEntryA : Entry := [("status", "200")]

/-- Line "B" parses to a record with status 503 (the rule's mapping fails on
it) and a request time of 0.125 seconds. -/
def demoEntryB : Entry := [("status", "503"), ("request_time", "0.125")]

/-- A concrete external parser: "A" and "B" parse to the records above, any
other line is a parse error. -/
def demoParse : String → Option Entry :=
  fun l => if l = "A" then some demoEntryA
           else if l = "B" then some demoEntryB
           else none

/-- An identity-copy rule from field "status" to label "status". -/
def demoRcId : RelabelConfig := ⟨"status", "status", fun s => some s⟩

/-- A namespace with one static label env="prod" and the identity rule. -/
def demoCfg2 : NamespaceConfig :=
  ⟨"app", "fmt", ["a.log"], ["env"], ["prod"], [demoRcId]⟩

/-- First of two rules sharing the target label "status": always maps to "a". -/
def c5cfg1 : RelabelConfig := ⟨"status", "s", fun _ => some "a"⟩

/-- Second of two rules sharing the target label "status": always maps to "b". -/
def c5cfg2 : RelabelConfig := ⟨"status", "s", fun _ => some "b"⟩

/-- A namespace whose two user rules target the same label "status". -/
def c5cfg : NamespaceConfig := ⟨"ns", "fmt", [], [], [], [c5cfg1, c5cfg2]⟩

/-- A record carrying the shared source field of the two `c5cfg` rules. -/
def c5entry : Entry := [("s", "x")]

/-- A record that agrees with `demoEntryB` on the three hardcoded numeric
fields but differs everywhere else. -/
def c10entry2 : Entry := [("request_time", "0.125"), ("other", "x")]

/-- A follower constructor that fails for every path. -/
def c7nf : String → Except String Follower :=
  fun _ => Except.error "permission denied"

/-- A namespace with a single unreadable source file. -/
def c7cfg : NamespaceConfig := ⟨"ns", "fmt", ["bad.log"], [], [], []⟩

/-! ### List helper lemmas -/

theorem setGet_eq {α : Type} : ∀ (l : List α) (n : Nat) (a : α),
    n < l.length → (l.set n a)[n]? = some a := by
  intro l
  induction l with
  | nil => intro n a h; simp at h
  | cons x xs ih =>
    intro n a h
    cases n with
    | zero => simp
    | succ m =>
      simp only [List.set, List.getElem?_cons_succ]
      exact ih m a (by simpa using h)

theorem setGet_ne {α : Type} : ∀ (l : List α) (n m : Nat) (a : α),
    m ≠ n → (l.set n a)[m]? = l[m]? := by
  intro l
  induction l with
  | nil => intro n m a _; simp
  | cons x xs ih =>
    intro n m a h
    cases n with
    | zero =>
      cases m with
      | zero => exact absurd rfl h
      | succ k => simp [List.set]
    | succ n' =>
      cases m with
      | zero => simp [List.set]
      | succ k =>
        simp only [List.set, List.getElem?_cons_succ]
        exact ih n' k a (fun hk => h (by simp [hk]))

theorem take_set_le {α : Type} : ∀ (l : List α) (n k : Nat) (a : α),
    k ≤ n → (l.set n a).take k = l.take k := by
  intro l
  induction l with
  | nil => intro n k a _; simp
  | cons x xs ih =>
    intro n k a h
    cases n with
    | zero =>
      have hk : k = 0 := Nat.le_antisymm h (Nat.zero_le k)
      subst hk; simp
    | succ n' =>
      cases k with
      | zero => simp
      | succ k' =>
        simp only [List.set, List.take_succ_cons]
        rw [ih n' k' a (Nat.le_of_succ_le_succ h)]

theorem set_append_add {α : Type} : ∀ (pre post : List α) (k : Nat) (a : α),
    (pre ++ post).set (pre.length + k) a = pre ++ post.set k a := by
  intro pre
  induction pre with
  | nil => intro post k a; simp
  | cons x xs ih =>
    intro post k a
    have h : (x :: xs).length + k = (xs.length + k) + 1 := by
      simp [Nat.succ_add]
    rw [h]
    have h2 : (x :: (xs ++ post)).set ((xs.length + k) + 1) a =
        x :: ((xs ++ post).set (xs.length + k) a) := rfl
    calc ((x :: xs) ++ post).set ((xs.length + k) + 1) a
        = x :: ((xs ++ post).set (xs.length + k) a) := h2
      _ = x :: (xs ++ post.set k a) := by rw [ih post k a]
      _ = (x :: xs) ++ post.set k a := rfl

theorem foldl_append_map {α : Type} (f : α → String) : ∀ (l : List α)
    (init : List String),
    l.foldl (fun acc r => acc ++ [f r]) init = init ++ l.map f := by
  intro l
  induction l with
  | nil => intro init; simp
  | cons a t ih => intro init; simp [ih, List.foldl_cons]

/-! ### Invariants of the relabel loop -/

theorem applyAux_cons (off : Nat) (entry : Entry) (i : Nat) (r : Relabeling)
    (rs : List Relabeling) (lv : List String) :
    applyRelabelingsAux off entry i (r :: rs) lv =
      applyRelabelingsAux off entry (i + 1) rs
        (match Entry.field entry r.SourceValue with
         | some str =>
           match r.Map str with
           | some mapped => lv.set (i + off) mapped
           | none => lv
         | none => lv) := rfl

theorem applyAux_length (off : Nat) (entry : Entry) : ∀ (rs : List Relabeling)
    (i : Nat) (lv : List String),
    (applyRelabelingsAux off entry i rs lv).length = lv.length := by
  intro rs
  induction rs with
  | nil => intro i lv; rfl
  | cons r rest ih =>
    intro i lv
    rw [applyAux_cons]
    cases hf : Entry.field entry r.SourceValue with
    | none => exact ih (i + 1) lv
    | some str =>
      cases hm : r.Map str with
      | none => simp only [hm]; exact ih (i + 1) lv
      | some mapped =>
        simp only [hm]
        rw [ih (i + 1) (lv.set (i + off) mapped)]
        simp

theorem applyAux_low (off : Nat) (entry : Entry) : ∀ (rs : List Relabeling)
    (i : Nat) (lv : List String) (k : Nat), k < i + off →
    (applyRelabelingsAux off entry i rs lv)[k]? = lv[k]? := by
  intro rs
  induction rs with
  | nil => intro i lv k _; rfl
  | cons r rest ih =>
    intro i lv k hk
    have hk' : k < (i + 1) + off := by omega
    rw [applyAux_cons]
    cases hf : Entry.field entry r.SourceValue with
    | none => exact ih (i + 1) lv k hk'
    | some str =>
      cases hm : r.Map str with
      | none => simp only [hm]; exact ih (i + 1) lv k hk'
      | some mapped =>
        simp only [hm]
        rw [ih (i + 1) (lv.set (i + off) mapped) k hk']
        exact setGet_ne lv (i + off) k mapped (by omega)

theorem applyAux_take (off : Nat) (entry : Entry) : ∀ (rs : List Relabeling)
    (i : Nat) (lv : List String),
    (applyRelabelingsAux off entry i rs lv).take off = lv.take off := by
  intro rs
  induction rs with
  | nil => intro i lv; rfl
  | cons r rest ih =>
    intro i lv
    rw [applyAux_cons]
    cases hf : Entry.field entry r.SourceValue with
    | none => exact ih (i + 1) lv
    | some str =>
      cases hm : r.Map str with
      | none => simp only [hm]; exact ih (i + 1) lv
      | some mapped =>
        simp only [hm]
        rw [ih (i + 1) (lv.set (i + off) mapped)]
        exact take_set_le lv (i + off) off mapped (Nat.le_add_left off i)

theorem applyAux_append (entry : Entry) : ∀ (rs : List Relabeling) (i : Nat)
    (pre post : List String),
    applyRelabelingsAux pre.length entry i rs (pre ++ post) =
      pre ++ applyRelabelingsAux 0 entry i rs post := by
  intro rs
  induction rs with
  | nil => intro i pre post; rfl
  | cons r rest ih =>
    intro i pre post
    rw [applyAux_cons, applyAux_cons]
    cases hf : Entry.field entry r.SourceValue with
    | none => exact ih (i + 1) pre post
    | some str =>
      cases hm : r.Map str with
      | none => simp only [hm]; exact ih (i + 1) pre post
      | some mapped =>
        simp only [hm]
        have h : (pre ++ post).set (i + pre.length) mapped =
            pre ++ post.set (i + 0) mapped := by
          rw [Nat.add_comm i pre.length]
          have h' := set_append_add pre post i mapped
          simp only [Nat.add_zero]
          exact h'
        rw [h]
        exact ih (i + 1) pre (post.set (i + 0) mapped)

theorem applyAux_get (off : Nat) (entry : Entry) : ∀ (rs : List Relabeling)
    (i j : Nat) (r : Relabeling) (lv : List String), rs[j]? = some r →
    i + rs.length + off ≤ lv.length →
    (applyRelabelingsAux off entry i rs lv)[i + j + off]? =
      (match Entry.field entry r.SourceValue with
       | some s =>
         match r.Map s with
         | some v => some v
         | none => lv[i + j + off]?
       | none => lv[i + j + off]?) := by
  intro rs
  induction rs with
  | nil => intro i j r lv hr _; simp at hr
  | cons r0 rest ih =>
    intro i j r lv hr hlen
    cases j with
    | zero =>
      have hr0 : r0 = r := by simpa using hr
      subst hr0
      rw [applyAux_cons]
      have hlow : ∀ lv' : List String,
          (applyRelabelingsAux off entry (i + 1) rest lv')[i + 0 + off]? =
            lv'[i + 0 + off]? :=
        fun lv' => applyAux_low off entry rest (i + 1) lv' (i + 0 + off) (by omega)
      cases hf : Entry.field entry r0.SourceValue with
      | none => exact hlow lv
      | some str =>
        cases hm : r0.Map str with
        | none => simp only [hm]; exact hlow lv
        | some mapped =>
          simp only [hm]
          rw [hlow (lv.set (i + off) mapped)]
          have hg : (lv.set (i + off) mapped)[i + off]? = some mapped :=
            setGet_eq lv (i + off) mapped (by simp at hlen; omega)
          simpa using hg
    | succ j' =>
      have hr' : rest[j']? = some r := by simpa using hr
      rw [applyAux_cons]
      have harith : i + (j' + 1) + off = (i + 1) + j' + off := by omega
      cases hf : Entry.field entry r0.SourceValue with
      | none =>
        rw [harith]
        exact ih (i + 1) j' r lv hr' (by simp at hlen; omega)
      | some str =>
        cases hm : r0.Map str with
        | none =>
          simp only [hm]
          rw [harith]
          exact ih (i + 1) j' r lv hr' (by simp at hlen; omega)
        | some mapped =>
          simp only [hm]
          rw [harith]
          rw [ih (i + 1) j' r (lv.set (i + off) mapped) hr'
            (by simp at hlen ⊢; omega)]
          have hne : (lv.set (i + off) mapped)[(i + 1) + j' + off]? =
              lv[(i + 1) + j' + off]? :=
            setGet_ne lv (i + off) ((i + 1) + j' + off) mapped (by omega)
          rw [hne]

/-! ### Invariants of the per-line update block -/

theorem mem_optBytes {lv : List String} {o : Option ℚ} {e : MetricEvent}
    (h : e ∈ (match o with
              | some b => [MetricEvent.addBytes lv b]
              | none => ([] : List MetricEvent))) :
    eventLabels e = some lv := by
  cases o with
  | none => simp at h
  | some b =>
    simp only [List.mem_singleton] at h
    subst h; rfl

theorem mem_optUpstream {lv : List String} {o : Option ℚ} {e : MetricEvent}
    (h : e ∈ (match o with
              | some t => [MetricEvent.observeUpstreamSummary lv t,
                           MetricEvent.observeUpstreamHist lv t]
              | none => ([] : List MetricEvent))) :
    eventLabels e = some lv := by
  cases o with
  | none => simp at h
  | some t =>
    simp only [List.mem_cons, List.mem_singleton] at h
    rcases h with h | h | h
    · subst h; rfl
    · subst h; rfl
    · simp at h

theorem mem_optResponse {lv : List String} {o : Option ℚ} {e : MetricEvent}
    (h : e ∈ (match o with
              | some t => [MetricEvent.observeResponseSummary lv t,
                           MetricEvent.observeResponseHist lv t]
              | none => ([] : List MetricEvent))) :
    eventLabels e = some lv := by
  cases o with
  | none => simp at h
  | some t =>
    simp only [List.mem_cons, List.mem_singleton] at h
    rcases h with h | h | h
    · subst h; rfl
    · subst h; rfl
    · simp at h

theorem lineEvents_fst (rs : List Relabeling) (off : Nat) (entry : Entry)
    (lv : List String) :
    (lineEvents rs off entry lv).1 = applyRelabelings rs off entry lv := rfl

/-- Every labeled event emitted for one successfully extracted line carries
the label value buffer as it stands after that line's relabel loop. -/
theorem lineEvents_labels (rs : List Relabeling) (off : Nat) (entry : Entry)
    (lv : List String) :
    ∀ e ∈ (lineEvents rs off entry lv).2,
      eventLabels e = some (lineEvents rs off entry lv).1 := by
  intro e he
  rw [lineEvents_fst]
  simp only [lineEvents, List.mem_append] at he
  rcases he with ((h | h) | h) | h
  · simp only [List.mem_singleton] at h
    subst h; rfl
  · exact mem_optBytes h
  · exact mem_optUpstream h
  · exact mem_optResponse h

theorem processLine_fst_length (parse : String → Option Entry)
    (rs : List Relabeling) (off : Nat) (lv : List String) (line : String) :
    ((processLine parse rs off lv line).1).length = lv.length := by
  unfold processLine
  cases parse line with
  | none => rfl
  | some entry => exact applyAux_length off entry rs 0 lv

theorem processLine_fst_take (parse : String → Option Entry)
    (rs : List Relabeling) (off : Nat) (lv : List String) (line : String) :
    ((processLine parse rs off lv line).1).take off = lv.take off := by
  unfold processLine
  cases parse line with
  | none => rfl
  | some entry => exact applyAux_take off entry rs 0 lv

theorem processLine_eq_none {parse : String → Option Entry}
    {line : String} (rs : List Relabeling) (off : Nat) (lv : List String)
    (h : parse line = none) :
    processLine parse rs off lv line = (lv, [MetricEvent.incParseError]) := by
  unfold processLine
  rw [h]

theorem processLine_eq_some {parse : String → Option Entry}
    {line : String} {entry : Entry} (rs : List Relabeling) (off : Nat)
    (lv : List String) (h : parse line = some entry) :
    processLine parse rs off lv line = lineEvents rs off entry lv := by
  unfold processLine
  rw [h]

theorem processLine_labels (parse : String → Option Entry)
    (rs : List Relabeling) (off : Nat) (lv : List String) (line : String) :
    ∀ e ∈ (processLine parse rs off lv line).2, ∀ ls,
      eventLabels e = some ls → ls = (processLine parse rs off lv line).1 := by
  intro e he ls hl
  cases hp : parse line with
  | none =>
    rw [processLine_eq_none rs off lv hp] at he ⊢
    simp only [List.mem_cons, List.not_mem_nil, or_false] at he
    subst he
    simp only [eventLabels] at hl
    exact absurd hl (by simp)
  | some entry =>
    rw [processLine_eq_some rs off lv hp] at he ⊢
    have h := lineEvents_labels rs off entry lv e he
    rw [h] at hl
    exact (Option.some.injEq _ _ ▸ hl).symm

theorem processLines_nil (parse : String → Option Entry)
    (rs : List Relabeling) (off : Nat) (lv : List String) :
    processLines parse rs off lv [] = (lv, []) := rfl

theorem processLines_cons (parse : String → Option Entry)
    (rs : List Relabeling) (off : Nat) (lv : List String) (line : String)
    (rest : List String) :
    processLines parse rs off lv (line :: rest) =
      ((processLines parse rs off (processLine parse rs off lv line).1 rest).1,
       (processLine parse rs off lv line).2 ++
         (processLines parse rs off (processLine parse rs off lv line).1
           rest).2) := rfl

/-- Invariant of the whole line loop: every labeled event's vector has the
length of the initial buffer and agrees with it on the first `off`
positions. -/
theorem processLines_labels (parse : String → Option Entry)
    (rs : List Relabeling) (off : Nat) :
    ∀ (lines : List String) (lv : List String),
      ∀ e ∈ (processLines parse rs off lv lines).2, ∀ ls,
        eventLabels e = some ls →
          ls.length = lv.length ∧ ls.take off = lv.take off := by
  intro lines
  induction lines with
  | nil => intro lv e he; simp [processLines_nil] at he
  | cons line rest ih =>
    intro lv e he ls hl
    rw [processLines_cons] at he
    simp only [List.mem_append] at he
    rcases he with h | h
    · have hls := processLine_labels parse rs off lv line e h ls hl
      subst hls
      exact ⟨processLine_fst_length parse rs off lv line,
        processLine_fst_take parse rs off lv line⟩
    · have hrec := ih (processLine parse rs off lv line).1 e h ls hl
      refine ⟨?_, ?_⟩
      · rw [hrec.1, processLine_fst_length parse rs off lv line]
      · rw [hrec.2, processLine_fst_take parse rs off lv line]

/-! ### The initial label value buffer -/

theorem copyStatic_shift : ∀ (s pre suf : List String),
    copyStatic pre.length s (pre ++ List.replicate s.length "" ++ suf) =
      pre ++ s ++ suf := by
  intro s
  induction s with
  | nil =>
    intro pre suf
    show pre ++ List.replicate ([] : List String).length "" ++ suf =
      pre ++ [] ++ suf
    simp
  | cons a ss ih =>
    intro pre suf
    have h1 : pre ++ List.replicate (a :: ss).length "" ++ suf =
        pre ++ ("" :: (List.replicate ss.length "" ++ suf)) := by
      simp [List.replicate_succ]
    rw [h1]
    show copyStatic (pre.length + 1) ss
        ((pre ++ ("" :: (List.replicate ss.length "" ++ suf))).set
          pre.length a) = pre ++ (a :: ss) ++ suf
    have h2 : (pre ++ ("" :: (List.replicate ss.length "" ++ suf))).set
        (pre.length + 0) a =
        pre ++ (a :: (List.replicate ss.length "" ++ suf)) :=
      set_append_add pre ("" :: (List.replicate ss.length "" ++ suf)) 0 a
    rw [Nat.add_zero] at h2
    rw [h2]
    have h3 : pre ++ (a :: (List.replicate ss.length "" ++ suf)) =
        (pre ++ [a]) ++ List.replicate ss.length "" ++ suf := by simp
    have h4 : pre.length + 1 = (pre ++ [a]).length := by simp
    rw [h3, h4, ih (pre ++ [a]) suf]
    simp

theorem copyStatic_eq (s : List String) (n : Nat) :
    copyStatic 0 s (List.replicate (s.length + n) "") =
      s ++ List.replicate n "" := by
  have e1 : List.replicate (s.length + n) ("") =
      List.replicate s.length "" ++ List.replicate n "" :=
    List.replicate_add s.length n ""
  rw [e1]
  have h := copyStatic_shift s [] (List.replicate n "")
  simp only [List.length_nil, List.nil_append] at h
  exact h

/-! ### Shared bridging lemmas -/

/-- The per-line update block, split by metric family: the request counter is
always incremented exactly once, and each optional observation appears exactly
when its own field parses, always keyed by the post-relabel buffer. -/
theorem lineEvents_filters (rs : List Relabeling) (off : Nat) (entry : Entry)
    (lv : List String) :
    ((lineEvents rs off entry lv).2.filter isIncCount =
      [MetricEvent.incCount (applyRelabelings rs off entry lv)])
    ∧ ((lineEvents rs off entry lv).2.filter isAddBytes =
      (match Entry.floatField entry "body_bytes_sent" with
       | some v => [MetricEvent.addBytes (applyRelabelings rs off entry lv) v]
       | none => []))
    ∧ ((lineEvents rs off entry lv).2.filter isUpstreamObs =
      (match Entry.floatField entry "upstream_response_time" with
       | some t => [MetricEvent.observeUpstreamSummary
                      (applyRelabelings rs off entry lv) t,
                    MetricEvent.observeUpstreamHist
                      (applyRelabelings rs off entry lv) t]
       | none => []))
    ∧ ((lineEvents rs off entry lv).2.filter isResponseObs =
      (match Entry.floatField entry "request_time" with
       | some t => [MetricEvent.observeResponseSummary
                      (applyRelabelings rs off entry lv) t,
                    MetricEvent.observeResponseHist
                      (applyRelabelings rs off entry lv) t]
       | none => [])) := by
  cases hb : Entry.floatField entry "body_bytes_sent" <;>
    cases hu : Entry.floatField entry "upstream_response_time" <;>
      cases hr : Entry.floatField entry "request_time" <;>
        simp [lineEvents, hb, hu, hr, isIncCount, isAddBytes, isUpstreamObs,
          isResponseObs]

/-- The relabel loop started past a fixed block of static values never
touches that block: relabeling over `values ++ suffix` with offset
`values.length` is `values ++` relabeling over `suffix` with offset 0. -/
theorem applyRelabelings_append (rs : List Relabeling) (entry : Entry)
    (values suffix : List String) :
    applyRelabelings rs values.length entry (values ++ suffix) =
      values ++ applyRelabelings rs 0 entry suffix :=
  applyAux_append entry rs 0 values suffix

/-- The initial buffer of `processSourceFile` is the static values followed
by empty defaults. -/
theorem processSourceFile_buffer (defaults : List Relabeling)
    (cfg : NamespaceConfig) :
    copyStatic 0 cfg.OrderedLabelValues
      (List.replicate (cfg.OrderedLabelValues.length +
        (defaults ++ NewRelabelings cfg.RelabelConfigs).length) "") =
      cfg.OrderedLabelValues ++
        List.replicate (defaults ++ NewRelabelings cfg.RelabelConfigs).length
          "" :=
  copyStatic_eq cfg.OrderedLabelValues
    (defaults ++ NewRelabelings cfg.RelabelConfigs).length

/-- Unfolding lemma: `processSourceFile` is the line loop over the initial buffer. -/
theorem processSourceFile_eq (defaults : List Relabeling)
    (cfg : NamespaceConfig) (parse : String → Option Entry)
    (lines : List String) :
    processSourceFile defaults cfg parse lines =
      processLines parse (defaults ++ NewRelabelings cfg.RelabelConfigs)
        cfg.OrderedLabelValues.length
        (copyStatic 0 cfg.OrderedLabelValues
          (List.replicate (cfg.OrderedLabelValues.length +
            (defaults ++ NewRelabelings cfg.RelabelConfigs).length) ""))
        lines := rfl

/-- Every labeled event of a source file run has a vector of the full
(static + rules) length whose static block is exactly the configured static
label values. -/
theorem processSourceFile_labels (defaults : List Relabeling)
    (cfg : NamespaceConfig) (parse : String → Option Entry)
    (lines : List String) :
    ∀ e ∈ (processSourceFile defaults cfg parse lines).2, ∀ ls,
      eventLabels e = some ls →
        ls.length = cfg.OrderedLabelValues.length +
          (defaults ++ NewRelabelings cfg.RelabelConfigs).length
        ∧ ls.take cfg.OrderedLabelValues.length = cfg.OrderedLabelValues := by
  intro e he ls hl
  rw [processSourceFile_eq] at he
  have h := processLines_labels parse
    (defaults ++ NewRelabelings cfg.RelabelConfigs)
    cfg.OrderedLabelValues.length lines _ e he ls hl
  rw [processSourceFile_buffer] at h
  refine ⟨?_, ?_⟩
  · rw [h.1]; simp
  · rw [h.2, List.take_left]

/-- The label schema of `Metrics.Init` is the static names followed by the
default rule targets followed by the user rule targets. -/
theorem initLabels_eq (defaults : List Relabeling) (cfg : NamespaceConfig) :
    Metrics.initLabels defaults cfg =
      cfg.OrderedLabelNames ++ defaults.map (fun r => r.TargetLabel)
        ++ (NewRelabelings cfg.RelabelConfigs).map (fun r => r.TargetLabel) := by
  have h1 := foldl_append_map (fun r : Relabeling => r.TargetLabel) defaults
    cfg.OrderedLabelNames
  have h2 := foldl_append_map (fun r : RelabelConfig => r.TargetLabel)
    cfg.RelabelConfigs
    (defaults.foldl (fun acc r => acc ++ [r.TargetLabel])
      cfg.OrderedLabelNames)
  have h3 : (NewRelabelings cfg.RelabelConfigs).map (fun r => r.TargetLabel) =
      cfg.RelabelConfigs.map (fun r => r.TargetLabel) := by
    simp [NewRelabelings]
  unfold Metrics.initLabels
  rw [h2, h1, h3]

/-- Any source file whose follower cannot be opened makes the whole
namespace-start fatal, regardless of its position in the file list. -/
theorem setupFollowers_fatal (nf : String → Except String Follower) :
    ∀ (files : List String) (n : Nat),
      (∃ f ∈ files, ∃ err, nf f = Except.error err) →
      ∃ err, setupFollowers nf files n = NamespaceOutcome.fatal err := by
  intro files
  induction files with
  | nil =>
    intro n h
    rcases h with ⟨f, hf, _⟩
    simp at hf
  | cons g gs ih =>
    intro n h
    rcases h with ⟨f, hf, err, herr⟩
    cases hg : nf g with
    | error e => exact ⟨e, by simp [setupFollowers, hg]⟩
    | ok fol =>
      have hf' : f ∈ gs := by
        rcases List.mem_cons.1 hf with rfl | h'
        · rw [herr] at hg; cases hg
        · exact h'
      rcases ih (n + 1) ⟨f, hf', err, herr⟩ with ⟨e, he⟩
      exact ⟨e, by simp [setupFollowers, hg, he]⟩

/-- Along any run of the shutdown coordinator, reaching an exited state from
anywhere means either we were already there or the exit code is 0. -/
theorem shutdownReaches_exited {s t : ShutdownState}
    (h : ShutdownReaches s t) :
    ∀ c : Nat, t = ShutdownState.exited c →
      s = ShutdownState.exited c ∨ c = 0 := by
  induction h with
  | refl s => intro c hc; exact Or.inl hc
  | step hab _ ih =>
    intro c hc
    rcases ih c hc with hb | h0
    · subst hb
      cases hab
      exact Or.inr rfl
    · exact Or.inr h0

/-! ### The claims -/

/-- Claim C1 — the code violates it (code bug). The label value buffer of
`processSourceFile` is allocated once, outside the line loop, and is NOT
reset between lines. Concretely: after line "A" (the rule fired and wrote
"200") the buffer holds ["200"]; line "B" parses with status "503", on which
the rule's mapping fails, yet the request-counter update for line "B" still
carries ["200"] — the value from line "A" — instead of the default [""]
demanded by the claim. -/
theorem c1_stale_label_eval :
    (processSourceFile [] demoCfg demoParse ["A"]).1 = ["200"]
    ∧ Entry.field demoEntryB "status" = some "503"
    ∧ demoRc.Map "503" = none
    ∧ (processLine demoParse (NewRelabelings demoCfg.RelabelConfigs) 0
        ["200"] "B").2.filter isIncCount = [MetricEvent.incCount ["200"]]
    ∧ (processSourceFile [] demoCfg demoParse ["A", "B"]).2.filter isIncCount
        = [MetricEvent.incCount ["200"], MetricEvent.incCount ["200"]]
    ∧ ("200" : String) ≠ "" := by
  decide

/-- Claim C2 (confirmed): the label schema compiled by `Metrics.Init` is
exactly static label names ++ built-in default rule targets ++ user rule
targets, and (provided the configured static names and values have the same
length) every label vector of every event produced by the line loop has
exactly the schema's length, with the static values in the leading
positions. -/
theorem c2_label_schema_alignment (defaults : List Relabeling)
    (cfg : NamespaceConfig) (parse : String → Option Entry)
    (lines : List String)
    (hlen : cfg.OrderedLabelNames.length = cfg.OrderedLabelValues.length) :
    Metrics.initLabels defaults cfg =
      cfg.OrderedLabelNames ++ defaults.map (fun r => r.TargetLabel)
        ++ (NewRelabelings cfg.RelabelConfigs).map (fun r => r.TargetLabel)
    ∧ ∀ e ∈ (processSourceFile defaults cfg parse lines).2, ∀ ls,
        eventLabels e = some ls →
          ls.length = (Metrics.initLabels defaults cfg).length
          ∧ ls.take cfg.OrderedLabelValues.length = cfg.OrderedLabelValues := by
  refine ⟨initLabels_eq defaults cfg, ?_⟩
  intro e he ls hl
  have h := processSourceFile_labels defaults cfg parse lines e he ls hl
  refine ⟨?_, h.2⟩
  rw [h.1, initLabels_eq]
  simp [NewRelabelings]
  omega

/-- Witness for C2 at a concrete namespace (one static label, one user
rule). -/
theorem c2_witness :
    demoCfg2.OrderedLabelNames.length = demoCfg2.OrderedLabelValues.length
    ∧ Metrics.initLabels [] demoCfg2 =
        demoCfg2.OrderedLabelNames ++
          (([] : List Relabeling).map fun r => r.TargetLabel) ++
          ((NewRelabelings demoCfg2.RelabelConfigs).map fun r =>
            r.TargetLabel) :=
  ⟨rfl, (c2_label_schema_alignment [] demoCfg2 demoParse ["A"] rfl).1⟩

/-- Claim C3 (confirmed): a line whose extraction fails contributes exactly
one parse-error increment — an unlabeled event — leaves the buffer
untouched, and the loop carries on with the remaining lines exactly as if
the failing line were absent (apart from the one counter increment). -/
theorem c3_parse_error_isolated (parse : String → Option Entry)
    (rs : List Relabeling) (off : Nat) (lv : List String) (line : String)
    (rest : List String) (h : parse line = none) :
    processLine parse rs off lv line = (lv, [MetricEvent.incParseError])
    ∧ eventLabels MetricEvent.incParseError = none
    ∧ processLines parse rs off lv (line :: rest) =
        ((processLines parse rs off lv rest).1,
         MetricEvent.incParseError :: (processLines parse rs off lv rest).2) := by
  have h1 := processLine_eq_none rs off lv h
  refine ⟨h1, rfl, ?_⟩
  rw [processLines_cons, h1]
  simp

/-- Witness for C3: the line "X" fails to parse and yields exactly the
parse-error event. -/
theorem c3_witness :
    demoParse "X" = none
    ∧ processLine demoParse (NewRelabelings demoCfg.RelabelConfigs) 0 [""]
        "X" = ([""], [MetricEvent.incParseError]) :=
  ⟨rfl, (c3_parse_error_isolated demoParse
    (NewRelabelings demoCfg.RelabelConfigs) 0 [""] "X" ["A"] rfl).1⟩

/-- Claim C4 (confirmed): for a successfully extracted line, the request
counter increments exactly once no matter what, and each optional numeric
observation (bytes, upstream, response) appears exactly when its own field
parses as a number — a missing or unparsable field suppresses only its own
observation. -/
theorem c4_optional_skip (parse : String → Option Entry)
    (rs : List Relabeling) (off : Nat) (lv : List String) (line : String)
    (entry : Entry) (h : parse line = some entry) :
    ((processLine parse rs off lv line).2.filter isIncCount =
      [MetricEvent.incCount (applyRelabelings rs off entry lv)])
    ∧ ((processLine parse rs off lv line).2.filter isAddBytes =
      (match Entry.floatField entry "body_bytes_sent" with
       | some v => [MetricEvent.addBytes (applyRelabelings rs off entry lv) v]
       | none => []))
    ∧ ((processLine parse rs off lv line).2.filter isUpstreamObs =
      (match Entry.floatField entry "upstream_response_time" with
       | some t => [MetricEvent.observeUpstreamSummary
                      (applyRelabelings rs off entry lv) t,
                    MetricEvent.observeUpstreamHist
                      (applyRelabelings rs off entry lv) t]
       | none => []))
    ∧ ((processLine parse rs off lv line).2.filter isResponseObs =
      (match Entry.floatField entry "request_time" with
       | some t => [MetricEvent.observeResponseSummary
                      (applyRelabelings rs off entry lv) t,
                    MetricEvent.observeResponseHist
                      (applyRelabelings rs off entry lv) t]
       | none => [])) := by
  rw [processLine_eq_some rs off lv h]
  exact lineEvents_filters rs off entry lv

/-- Witness for C4: line "B" has no bytes field and no upstream field, yet
its request counter still increments exactly once. -/
theorem c4_witness :
    demoParse "B" = some demoEntryB
    ∧ Entry.floatField demoEntryB "body_bytes_sent" = none
    ∧ (processLine demoParse (NewRelabelings demoCfg.RelabelConfigs) 0 [""]
        "B").2.filter isIncCount =
      [MetricEvent.incCount (applyRelabelings
        (NewRelabelings demoCfg.RelabelConfigs) 0 demoEntryB [""])] :=
  ⟨rfl, rfl, (c4_optional_skip demoParse
    (NewRelabelings demoCfg.RelabelConfigs) 0 [""] "B" demoEntryB rfl).1⟩

/-- Claim C5 — refuted as stated. Two rules that target the same label do
NOT share one vector position: each rule writes its own position (static
count + rule index). With both `c5cfg` rules firing ("a" from the earlier
rule, "b" from the later), the schema reads ["status", "status"], the vector
reads ["a", "b"], and the first position carrying the target label "status"
holds the EARLIER rule's "a" — not the later rule's "b" that last-write-wins
would demand. -/
theorem c5_counterexample :
    Metrics.initLabels [] c5cfg = ["status", "status"]
    ∧ Entry.field c5entry "s" = some "x"
    ∧ c5cfg1.Map "x" = some "a"
    ∧ c5cfg2.Map "x" = some "b"
    ∧ applyRelabelings (NewRelabelings c5cfg.RelabelConfigs) 0 c5entry
        ["", ""] = ["a", "b"]
    ∧ (applyRelabelings (NewRelabelings c5cfg.RelabelConfigs) 0 c5entry
        ["", ""])[0]? = some "a"
    ∧ ("a" : String) ≠ "b" := by
  decide

/-- Claim C5, amended: each rule owns the vector position (rule index +
offset); a rule that fires writes its value there, and a rule that does not
fire leaves that position's incoming value — positions of other rules,
including ones sharing the same target label name, are never overwritten by
it. -/
theorem c5_amended (rs : List Relabeling) (off : Nat) (entry : Entry)
    (lv : List String) (j : Nat) (r : Relabeling) (hr : rs[j]? = some r)
    (hlen : rs.length + off ≤ lv.length) :
    (applyRelabelings rs off entry lv)[j + off]? =
      (match Entry.field entry r.SourceValue with
       | some s =>
         match r.Map s with
         | some v => some v
         | none => lv[j + off]?
       | none => lv[j + off]?) := by
  have h := applyAux_get off entry rs 0 j r lv hr (by omega)
  simpa [applyRelabelings] using h

/-- Witness for the amended C5: the later rule's value "b" sits at the later
rule's own position, index 1. -/
theorem c5_amended_witness :
    (NewRelabelings c5cfg.RelabelConfigs)[1]? =
      some ⟨c5cfg2.TargetLabel, c5cfg2.SourceValue, c5cfg2.Map⟩
    ∧ (applyRelabelings (NewRelabelings c5cfg.RelabelConfigs) 0 c5entry
        ["", ""])[1 + 0]? = some "b" := by
  refine ⟨rfl, ?_⟩
  have h := c5_amended (NewRelabelings c5cfg.RelabelConfigs) 0 c5entry
    ["", ""] 1 ⟨c5cfg2.TargetLabel, c5cfg2.SourceValue, c5cfg2.Map⟩ rfl
    (by decide)
  exact h

/-- The events of a single-line source file run, with the initial buffer in
closed form. -/
theorem processSourceFile_single_events (defaults : List Relabeling)
    (cfg : NamespaceConfig) (parse : String → Option Entry) (line : String)
    (entry : Entry) (h : parse line = some entry) :
    (processSourceFile defaults cfg parse [line]).2 =
      (lineEvents (defaults ++ NewRelabelings cfg.RelabelConfigs)
        cfg.OrderedLabelValues.length entry
        (cfg.OrderedLabelValues ++
          List.replicate
            (defaults ++ NewRelabelings cfg.RelabelConfigs).length "")).2 := by
  rw [processSourceFile_eq, processSourceFile_buffer, processLines_cons,
    processLine_eq_some _ _ _ h, processLines_nil]
  simp

/-- Claim C6 — refuted as stated, because of the same unreset buffer as C1:
on the second line of the run the request-counter's Label Vector is the
stale ["200"], not the static values followed by the relabeling pipeline's
output over that line's fields (which is [""]). -/
theorem c6_counterexample :
    demoParse "B" = some demoEntryB
    ∧ demoCfg.OrderedLabelValues ++ applyRelabelings
        (([] : List Relabeling) ++ NewRelabelings demoCfg.RelabelConfigs) 0
        demoEntryB
        (List.replicate (([] : List Relabeling) ++
          NewRelabelings demoCfg.RelabelConfigs).length "") = [""]
    ∧ ((processSourceFile [] demoCfg demoParse ["A", "B"]).2.filter
        isIncCount).getLast? = some (MetricEvent.incCount ["200"])
    ∧ MetricEvent.incCount ["200"] ≠ MetricEvent.incCount [""] := by
  decide

/-- Claim C6, amended: every successfully extracted line produces exactly
one request-counter increment; on a run whose buffer is still in its initial
(reset) state — here, a single-line run — that increment's Label Vector is
the static label values followed by the relabeling pipeline's output over
the line's fields, and if the line's request_time parses as a number both
the response-time summary and histogram observe it with that same vector. -/
theorem c6_request_counter (defaults : List Relabeling)
    (cfg : NamespaceConfig) (parse : String → Option Entry) (line : String)
    (entry : Entry) (h : parse line = some entry) :
    ((processSourceFile defaults cfg parse [line]).2.filter isIncCount =
      [MetricEvent.incCount (cfg.OrderedLabelValues ++
        applyRelabelings (defaults ++ NewRelabelings cfg.RelabelConfigs) 0
          entry
          (List.replicate
            (defaults ++ NewRelabelings cfg.RelabelConfigs).length ""))])
    ∧ (∀ t, Entry.floatField entry "request_time" = some t →
        MetricEvent.observeResponseSummary
          (cfg.OrderedLabelValues ++
            applyRelabelings (defaults ++ NewRelabelings cfg.RelabelConfigs)
              0 entry
              (List.replicate
                (defaults ++ NewRelabelings cfg.RelabelConfigs).length "")) t
          ∈ (processSourceFile defaults cfg parse [line]).2
        ∧ MetricEvent.observeResponseHist
          (cfg.OrderedLabelValues ++
            applyRelabelings (defaults ++ NewRelabelings cfg.RelabelConfigs)
              0 entry
              (List.replicate
                (defaults ++ NewRelabelings cfg.RelabelConfigs).length "")) t
          ∈ (processSourceFile defaults cfg parse [line]).2)
    ∧ (∀ (rs2 : List Relabeling) (off2 : Nat) (lv2 : List String),
        ((processLine parse rs2 off2 lv2 line).2.filter isIncCount).length
          = 1) := by
  have hev := processSourceFile_single_events defaults cfg parse line entry h
  have happ := applyRelabelings_append
    (defaults ++ NewRelabelings cfg.RelabelConfigs) entry
    cfg.OrderedLabelValues
    (List.replicate (defaults ++ NewRelabelings cfg.RelabelConfigs).length "")
  have hfil := lineEvents_filters
    (defaults ++ NewRelabelings cfg.RelabelConfigs)
    cfg.OrderedLabelValues.length entry
    (cfg.OrderedLabelValues ++
      List.replicate (defaults ++ NewRelabelings cfg.RelabelConfigs).length "")
  refine ⟨?_, ?_, ?_⟩
  · rw [hev, hfil.1, happ]
  · intro t ht
    have hresp := hfil.2.2.2
    rw [ht] at hresp
    constructor
    · rw [hev, ← happ]
      exact List.mem_of_mem_filter (p := isResponseObs) (by rw [hresp]; simp)
    · rw [hev, ← happ]
      exact List.mem_of_mem_filter (p := isResponseObs) (by rw [hresp]; simp)
  · intro rs2 off2 lv2
    rw [processLine_eq_some rs2 off2 lv2 h,
      (lineEvents_filters rs2 off2 entry lv2).1]
    rfl

/-- Witness for the amended C6: Scenario A — line "B" carries
request_time=0.125; the response-time summary observes 0.125 with the
request counter's vector. -/
theorem c6_witness :
    demoParse "B" = some demoEntryB
    ∧ Entry.floatField demoEntryB "request_time" = some (1 / 8 : ℚ)
    ∧ MetricEvent.observeResponseSummary
        (demoCfg.OrderedLabelValues ++ applyRelabelings
          (([] : List Relabeling) ++ NewRelabelings demoCfg.RelabelConfigs) 0
          demoEntryB
          (List.replicate (([] : List Relabeling) ++
            NewRelabelings demoCfg.RelabelConfigs).length ""))
        (1 / 8 : ℚ) ∈ (processSourceFile [] demoCfg demoParse ["B"]).2 := by
  have hfloat : Entry.floatField demoEntryB "request_time" =
      some (1 / 8 : ℚ) := by
    have h1 : Entry.floatField demoEntryB "request_time" =
        some ((1 : ℚ) * ((natFromDigits ['0'] : ℚ) +
          (natFromDigits ['1', '2', '5'] : ℚ) /
            ((10 : ℚ) ^ (['1', '2', '5'].length)))) := rfl
    have h0 : natFromDigits ['0'] = 0 := by decide
    have h125 : natFromDigits ['1', '2', '5'] = 125 := by decide
    rw [h1, h0, h125]
    norm_num
  refine ⟨rfl, hfloat, ?_⟩
  exact ((c6_request_counter [] demoCfg demoParse "B" demoEntryB rfl).2.1
    (1 / 8 : ℚ) hfloat).1

/-- Claim C7 (confirmed): a follower that cannot be opened for any source
file of the namespace makes starting the namespace process-fatal (a panic),
and the `OnError` callback wired to every running follower maps every
terminal follower error to the same process-fatal outcome — no loop ever
stops silently while the rest keep serving. -/
theorem c7_follower_error_fatal :
    (∀ (newFollower : String → Except String Follower)
       (cfg : NamespaceConfig),
      (∃ f ∈ cfg.SourceFiles, ∃ err, newFollower f = Except.error err) →
      ∃ err, processNamespace newFollower cfg = NamespaceOutcome.fatal err)
    ∧ (∀ err, followerOnError err = NamespaceOutcome.fatal err) := by
  constructor
  · intro nf cfg h
    exact setupFollowers_fatal nf cfg.SourceFiles 0 h
  · intro err
    rfl

/-- Witness for C7: one unreadable source file aborts the namespace. -/
theorem c7_witness :
    (∃ f ∈ c7cfg.SourceFiles, ∃ err, c7nf f = Except.error err)
    ∧ ∃ err, processNamespace c7nf c7cfg = NamespaceOutcome.fatal err := by
  have hin : ∃ f ∈ c7cfg.SourceFiles, ∃ err, c7nf f = Except.error err :=
    ⟨"bad.log", by decide, "permission denied", rfl⟩
  exact ⟨hin, c7_follower_error_fatal.1 c7nf c7cfg hin⟩

/-- Claim C8 (confirmed): `os.Exit(1)` happens exactly when the
configuration carries a stability warning and the experimental opt-in flag
is unset; and in the shutdown coordinator the only step into an exited state
is `os.Exit(0)` from the state where the broadcast has happened and the
counted wait group has fully drained, so every run that reaches an exit
after a termination signal exits with code 0. -/
theorem c8_exit_codes_and_shutdown :
    (∀ w e : Bool, stabilityExitCode w e = some 1 ↔ (w = true ∧ e = false))
    ∧ (∀ (s : ShutdownState) (c : Nat),
        ShutdownStep s (ShutdownState.exited c) →
          s = ShutdownState.stopping 0 ∧ c = 0)
    ∧ (∀ (p c : Nat),
        ShutdownReaches (ShutdownState.running p) (ShutdownState.exited c) →
          c = 0) := by
  refine ⟨?_, ?_, ?_⟩
  · intro w e
    cases w <;> cases e <;> simp [stabilityExitCode]
  · intro s c hstep
    cases hstep
    exact ⟨rfl, rfl⟩
  · intro p c h
    rcases shutdownReaches_exited h c rfl with habs | h0
    · exact ShutdownState.noConfusion habs
    · exact h0

/-- Witness for C8: a run with one registered auxiliary handler — signal,
broadcast, the handler acknowledges, exit — reaches exit code 0; and the
experimental gate returns exit code 1 on (warning, no opt-in). -/
theorem c8_witness :
    stabilityExitCode true false = some 1 ∧ (0 : Nat) = 0 :=
  ⟨(c8_exit_codes_and_shutdown.1 true false).mpr ⟨rfl, rfl⟩,
   c8_exit_codes_and_shutdown.2.2 1 0
     (ShutdownReaches.step (ShutdownStep.signal 1)
       (ShutdownReaches.step (ShutdownStep.ack 0)
         (ShutdownReaches.step ShutdownStep.exit
           (ShutdownReaches.refl (ShutdownState.exited 0)))))⟩

/-- Claim C9 (confirmed): the relabel loop never writes below the static
offset, so for every event of a source file run the first
len(static values) positions of its vector are exactly the configured
static values. -/
theorem c9_static_prefix_frame (defaults : List Relabeling)
    (cfg : NamespaceConfig) (parse : String → Option Entry)
    (lines : List String) :
    (∀ (rs : List Relabeling) (entry : Entry) (lv : List String) (k : Nat),
      k < cfg.OrderedLabelValues.length →
      (applyRelabelings rs cfg.OrderedLabelValues.length entry lv)[k]? =
        lv[k]?)
    ∧ ∀ e ∈ (processSourceFile defaults cfg parse lines).2, ∀ ls,
        eventLabels e = some ls →
          ls.take cfg.OrderedLabelValues.length = cfg.OrderedLabelValues := by
  constructor
  · intro rs entry lv k hk
    exact applyAux_low cfg.OrderedLabelValues.length entry rs 0 lv k
      (by omega)
  · intro e he ls hl
    exact (processSourceFile_labels defaults cfg parse lines e he ls hl).2

/-- Witness for C9 at a namespace with static label env="prod". -/
theorem c9_witness :
    MetricEvent.incCount ["prod", "200"] ∈
      (processSourceFile [] demoCfg2 demoParse ["A"]).2
    ∧ (["prod", "200"] : List String).take
        demoCfg2.OrderedLabelValues.length = demoCfg2.OrderedLabelValues :=
  ⟨by decide,
   (c9_static_prefix_frame [] demoCfg2 demoParse ["A"]).2
     (MetricEvent.incCount ["prod", "200"]) (by decide) ["prod", "200"] rfl⟩

/-- Claim C10 (confirmed): the numeric observations of a processed line —
kinds and values, labels aside — are a function of the record's values at
the three hardcoded field names only; the relabeling configuration, the
offset, the buffer, and every other field of the record are irrelevant to
them. -/
theorem c10_hardcoded_fields (entry1 entry2 : Entry)
    (rs1 rs2 : List Relabeling) (off1 off2 : Nat) (lv1 lv2 : List String)
    (hb : Entry.floatField entry1 "body_bytes_sent" =
      Entry.floatField entry2 "body_bytes_sent")
    (hu : Entry.floatField entry1 "upstream_response_time" =
      Entry.floatField entry2 "upstream_response_time")
    (hr : Entry.floatField entry1 "request_time" =
      Entry.floatField entry2 "request_time") :
    (lineEvents rs1 off1 entry1 lv1).2.filterMap numericObservation =
      (lineEvents rs2 off2 entry2 lv2).2.filterMap numericObservation := by
  simp only [lineEvents]
  rw [← hb, ← hu, ← hr]
  cases h1 : Entry.floatField entry1 "body_bytes_sent" <;>
    cases h2 : Entry.floatField entry1 "upstream_response_time" <;>
      cases h3 : Entry.floatField entry1 "request_time" <;>
        simp [numericObservation]

/-- Witness for C10: two different records agreeing on the three hardcoded
fields, run under different rule lists, offsets and buffers, produce the
same numeric observations. -/
theorem c10_witness :
    Entry.floatField demoEntryB "body_bytes_sent" =
      Entry.floatField c10entry2 "body_bytes_sent"
    ∧ Entry.floatField demoEntryB "request_time" =
      Entry.floatField c10entry2 "request_time"
    ∧ (lineEvents (NewRelabelings demoCfg.RelabelConfigs) 0 demoEntryB
        [""]).2.filterMap numericObservation =
      (lineEvents [] 5 c10entry2 []).2.filterMap numericObservation :=
  ⟨rfl, rfl,
   c10_hardcoded_fields demoEntryB c10entry2
     (NewRelabelings demoCfg.RelabelConfigs) [] 0 5 [""] [] rfl rfl rfl⟩

end NginxLog
